import Mathlib

/-! Shallow embedding of the slint-layer-shell windowing shim
(src/lib.rs, src/platform.rs, src/window_adapter.rs).

Modelling conventions:
- Wayland `ObjectId` surface identities are `Nat`.
- `f32`/`f64` coordinates and scroll deltas are `ℚ` (the code only
  compares against zero and multiplies by 15, both exact).
- `HashMap<ObjectId, Weak<LayerShellWindowAdapter>>` is an association
  list `Reg`; a value `none` is a weak reference whose `upgrade()` fails
  (dead window), `some a` is a live adapter with mutable state `a`.
- `HashMap<i32, (ObjectId, (f32, f32))>` (touch points) is an
  association list `TouchTable`.
- Dispatching a `WindowEvent` to the toolkit window is recorded as an
  `Out` value in an emitted event list; `try_dispatch_event` results are
  discarded by the code, so the model does not track them.
- Sizes are physical pixels; the `to_logical` division by the window
  scale factor (a toolkit-side value, 1 by default) is outside the model,
  so `Out.resized` carries the physical size.
-/

namespace SlintLayerShell

/-- Physical size in pixels (slint `PhysicalSize`, u32 fields modelled as Nat). -/
structure PhysSize where
  width : Nat
  height : Nat
deriving DecidableEq

/-- window_adapter.rs `WindowState`. -/
inductive WindowState where
  | Pending
  | Configured
  | Destroy
deriving DecidableEq

/-- The mutable per-window fields of `LayerShellWindowAdapter`
(window_adapter.rs lines 41-45): `window_state`, `pending_redraw`,
`frame_callback_pending`, `size`, `pending_size`. -/
structure Adapter where
  windowState : WindowState
  pendingRedraw : Bool
  frameCallbackPending : Bool
  size : PhysSize
  pendingSize : Option PhysSize
deriving DecidableEq

/-- Adapter state as constructed in `LayerShellWindowAdapter::new`
(window_adapter.rs lines 113-117). -/
def Adapter.initial : Adapter :=
  { windowState := WindowState.Pending
    pendingRedraw := false
    frameCallbackPending := false
    size := ⟨0, 0⟩
    pendingSize := none }

/-- The weak-window registry `window_adapters`: surface id to weak
reference; `none` models a weak reference whose upgrade fails. -/
abbrev Reg := List (Nat × Option Adapter)

/-- Registry lookup `self.window_adapters.get(&id)` followed by
`upgrade()`: `none` = id absent, `some none` = present but dead,
`some (some a)` = present and live. -/
def lookupReg : Reg → Nat → Option (Option Adapter)
  | [], _ => none
  | p :: rest, sid => if p.1 = sid then some p.2 else lookupReg rest sid

/-- Registry eviction `self.window_adapters.remove(&id)`. -/
def removeReg (reg : Reg) (sid : Nat) : Reg :=
  reg.filter (fun p => p.1 ≠ sid)

/-- Mutation of a live adapter through its `Cell` fields, in place. -/
def updateReg (reg : Reg) (sid : Nat) (a : Adapter) : Reg :=
  reg.map (fun p => if p.1 = sid then (p.1, some a) else p)

/-- Whether an identity currently resolves to a live adapter: the
`get(&id)` + `upgrade()` chain succeeds. -/
def liveState (reg : Reg) (x : Nat) : Bool :=
  match lookupReg reg x with
  | some (some _) => true
  | _ => false

/-- slint `PointerEventButton`. -/
inductive PtrButton where
  | left
  | right
  | middle
  | other
deriving DecidableEq

/-- Toolkit-facing `WindowEvent` dispatches recorded by the model,
tagged with the target surface id. -/
inductive Out where
  | pointerMoved (sid : Nat) (pos : ℚ × ℚ)
  | pointerExited (sid : Nat)
  | pointerPressed (sid : Nat) (pos : ℚ × ℚ) (button : PtrButton)
  | pointerReleased (sid : Nat) (pos : ℚ × ℚ) (button : PtrButton)
  | pointerScrolled (sid : Nat) (pos : ℚ × ℚ) (dx dy : ℚ)
  | keyPressed (sid : Nat) (text : String)
  | keyPressRepeated (sid : Nat) (text : String)
  | keyReleased (sid : Nat) (text : String)
  | resized (sid : Nat) (size : PhysSize)
  | windowActiveChanged (sid : Nat) (active : Bool)
  | scaleFactorChanged (sid : Nat) (scale : Int)
deriving DecidableEq

/-- A smithay `KeyEvent` as the code consumes it: the optional UTF-8
text and the result of `keysym.key_char()` (an external xkb mapping,
abstracted as a field). -/
structure KeyEvent where
  utf8 : Option String
  keyChar : Option Char
deriving DecidableEq

/-- lib.rs `key_event_text` (lines 705-712): non-empty utf8 text wins,
else the keysym character, else nothing. -/
def key_event_text (e : KeyEvent) : Option String :=
  match e.utf8 with
  | some text =>
      if text ≠ "" then some text
      else e.keyChar.map (fun c => String.mk [c])
  | none => e.keyChar.map (fun c => String.mk [c])

/-- lib.rs `KeyboardHandler::press_key` (lines 386-410): resolve the
focused surface through the registry and upgrade, resolve the text, and
only if both succeed dispatch `KeyPressed` and set `pending_redraw`.
The `and_then` chain never removes a dead registry entry. -/
def press_key (focus : Option Nat) (reg : Reg) (e : KeyEvent) :
    Reg × List Out :=
  match focus with
  | none => (reg, [])
  | some sid =>
    match lookupReg reg sid with
    | none => (reg, [])
    | some none => (reg, [])
    | some (some a) =>
      match key_event_text e with
      | none => (reg, [])
      | some t =>
          (updateReg reg sid { a with pendingRedraw := true },
           [Out.keyPressed sid t])

/-- lib.rs `KeyboardHandler::repeat_key` (lines 412-436): same shape as
`press_key`, dispatching `KeyPressRepeated`. -/
def repeat_key (focus : Option Nat) (reg : Reg) (e : KeyEvent) :
    Reg × List Out :=
  match focus with
  | none => (reg, [])
  | some sid =>
    match lookupReg reg sid with
    | none => (reg, [])
    | some none => (reg, [])
    | some (some a) =>
      match key_event_text e with
      | none => (reg, [])
      | some t =>
          (updateReg reg sid { a with pendingRedraw := true },
           [Out.keyPressRepeated sid t])

/-- lib.rs `KeyboardHandler::release_key` (lines 438-462): same shape as
`press_key`, dispatching `KeyReleased`. -/
def release_key (focus : Option Nat) (reg : Reg) (e : KeyEvent) :
    Reg × List Out :=
  match focus with
  | none => (reg, [])
  | some sid =>
    match lookupReg reg sid with
    | none => (reg, [])
    | some none => (reg, [])
    | some (some a) =>
      match key_event_text e with
      | none => (reg, [])
      | some t =>
          (updateReg reg sid { a with pendingRedraw := true },
           [Out.keyReleased sid t])

/-- lib.rs `KeyboardHandler::enter` (lines 340-362): set the focus, then
notify the window active and request redraw if live; evict if dead.
Returns (new focus, new registry, dispatched events). -/
def kb_enter (reg : Reg) (sid : Nat) : Option Nat × Reg × List Out :=
  match lookupReg reg sid with
  | none => (some sid, reg, [])
  | some none => (some sid, removeReg reg sid, [])
  | some (some a) =>
      (some sid,
       updateReg reg sid { a with pendingRedraw := true },
       [Out.windowActiveChanged sid true])

/-- lib.rs `KeyboardHandler::leave` (lines 364-384): clear the focus,
then notify inactive and request redraw if live; evict if dead. -/
def kb_leave (reg : Reg) (sid : Nat) : Option Nat × Reg × List Out :=
  match lookupReg reg sid with
  | none => (none, reg, [])
  | some none => (none, removeReg reg sid, [])
  | some (some a) =>
      (none,
       updateReg reg sid { a with pendingRedraw := true },
       [Out.windowActiveChanged sid false])

/-- lib.rs `CompositorHandler::frame` (lines 200-215): the frame
callback acknowledgement. Live: clear `frame_callback_pending`.
Dead: evict the registry entry. -/
def frame (reg : Reg) (sid : Nat) : Reg :=
  match lookupReg reg sid with
  | none => reg
  | some none => removeReg reg sid
  | some (some a) =>
      updateReg reg sid { a with frameCallbackPending := false }

/-- lib.rs `CompositorHandler::surface_enter` (lines 217-242):
`outputScale` is `output_state.info(output).scale_factor` when the
output info exists. Live with info: dispatch `ScaleFactorChanged` with
`scale_factor.max(1)` and set `pending_redraw`; dead: evict. -/
def surface_enter (reg : Reg) (sid : Nat) (outputScale : Option Int) :
    Reg × List Out :=
  match lookupReg reg sid with
  | none => (reg, [])
  | some none => (removeReg reg sid, [])
  | some (some a) =>
    match outputScale with
    | none => (reg, [])
    | some s =>
        (updateReg reg sid { a with pendingRedraw := true },
         [Out.scaleFactorChanged sid (max s 1)])

/-- lib.rs `CompositorHandler::surface_leave` (lines 244-260): live:
set `pending_redraw`; dead: evict. -/
def surface_leave (reg : Reg) (sid : Nat) : Reg × List Out :=
  match lookupReg reg sid with
  | none => (reg, [])
  | some none => (removeReg reg sid, [])
  | some (some a) =>
      (updateReg reg sid { a with pendingRedraw := true }, [])

/-- lib.rs `map_pointer_button` (lines 696-703); BTN_LEFT = 0x110,
BTN_RIGHT = 0x111, BTN_MIDDLE = 0x112. -/
def map_pointer_button (button : Nat) : PtrButton :=
  if button = 272 then PtrButton.left
  else if button = 273 then PtrButton.right
  else if button = 274 then PtrButton.middle
  else PtrButton.other

/-- One axis of a smithay `AxisScroll`: continuous value and discrete
step count. -/
structure AxisScroll where
  absolute : ℚ
  discrete : Int
deriving DecidableEq

/-- Axis delta resolution in `PointerHandler::pointer_frame`
(lib.rs lines 529-538): the continuous value when nonzero, else the
discrete step count times 15. -/
def scroll_delta (ax : AxisScroll) : ℚ :=
  if ax.absolute ≠ 0 then ax.absolute else ax.discrete * 15

/-- The kind of a smithay `PointerEventKind` as consumed by the code. -/
inductive PtrKind where
  | enter
  | motion
  | leave
  | press (button : Nat)
  | release (button : Nat)
  | axis (horizontal vertical : AxisScroll)
deriving DecidableEq

/-- A smithay `PointerEvent`: target surface, position, kind. -/
structure PointerEvent where
  surface : Nat
  position : ℚ × ℚ
  kind : PtrKind
deriving DecidableEq

/-- One iteration of the `for event in events` loop of
`PointerHandler::pointer_frame` (lib.rs lines 485-550): resolve the
surface (evict and skip if dead, skip if absent), translate the kind,
dispatch, set `pending_redraw`. -/
def pointer_event_step (reg : Reg) (e : PointerEvent) : Reg × List Out :=
  match lookupReg reg e.surface with
  | none => (reg, [])
  | some none => (removeReg reg e.surface, [])
  | some (some a) =>
    let out : Out :=
      match e.kind with
      | PtrKind.enter => Out.pointerMoved e.surface e.position
      | PtrKind.motion => Out.pointerMoved e.surface e.position
      | PtrKind.leave => Out.pointerExited e.surface
      | PtrKind.press b =>
          Out.pointerPressed e.surface e.position (map_pointer_button b)
      | PtrKind.release b =>
          Out.pointerReleased e.surface e.position (map_pointer_button b)
      | PtrKind.axis h v =>
          Out.pointerScrolled e.surface e.position
            (scroll_delta h) (scroll_delta v)
    (updateReg reg e.surface { a with pendingRedraw := true }, [out])

/-- lib.rs `PointerHandler::pointer_frame`: the whole batch, processed
in order. -/
def pointer_frame (reg : Reg) (events : List PointerEvent) :
    Reg × List Out :=
  events.foldl
    (fun acc e =>
      let r := pointer_event_step acc.1 e
      (r.1, acc.2 ++ r.2))
    (reg, [])

/-- The touch-point table `touch_points`: id to (surface id, last
position). -/
abbrev TouchTable := List (Int × Nat × (ℚ × ℚ))

/-- Touch-table lookup `self.touch_points.get(&id)`. -/
def lookupTouch : TouchTable → Int → Option (Nat × (ℚ × ℚ))
  | [], _ => none
  | p :: rest, id => if p.1 = id then some p.2 else lookupTouch rest id

/-- Touch-table removal `self.touch_points.remove(&id)` (the removal
effect). -/
def removeTouch (tp : TouchTable) (id : Int) : TouchTable :=
  tp.filter (fun p => p.1 ≠ id)

/-- Touch-table insertion `self.touch_points.insert(id, v)`. -/
def insertTouch (tp : TouchTable) (id : Int) (v : Nat × (ℚ × ℚ)) :
    TouchTable :=
  (id, v) :: removeTouch tp id

/-- Update of the stored position through `get_mut` in
`TouchHandler::motion`. -/
def setTouchPos (tp : TouchTable) (id : Int) (pos : ℚ × ℚ) : TouchTable :=
  tp.map (fun p => if p.1 = id then (p.1, p.2.1, pos) else p)

/-- lib.rs `TouchHandler::down` (lines 555-585): resolve the surface
(return if absent, evict and return if dead), record the touch point,
dispatch a left-button press, set `pending_redraw`. -/
def touch_down (tp : TouchTable) (reg : Reg) (sid : Nat) (id : Int)
    (pos : ℚ × ℚ) : TouchTable × Reg × List Out :=
  match lookupReg reg sid with
  | none => (tp, reg, [])
  | some none => (tp, removeReg reg sid, [])
  | some (some a) =>
      (insertTouch tp id (sid, pos),
       updateReg reg sid { a with pendingRedraw := true },
       [Out.pointerPressed sid pos PtrButton.left])

/-- lib.rs `TouchHandler::up` (lines 587-614): remove the touch point
(silent return when the id is unknown), then resolve its surface and
dispatch a left-button release at the stored position. -/
def touch_up (tp : TouchTable) (reg : Reg) (id : Int) :
    TouchTable × Reg × List Out :=
  match lookupTouch tp id with
  | none => (tp, reg, [])
  | some (sid, pos) =>
    let tp' := removeTouch tp id
    match lookupReg reg sid with
    | none => (tp', reg, [])
    | some none => (tp', removeReg reg sid, [])
    | some (some a) =>
        (tp',
         updateReg reg sid { a with pendingRedraw := true },
         [Out.pointerReleased sid pos PtrButton.left])

/-- lib.rs `TouchHandler::motion` (lines 616-647): silent return when
the id is unknown; else store the new position, then resolve the
surface and dispatch a pointer move at the new position. -/
def touch_motion (tp : TouchTable) (reg : Reg) (id : Int)
    (pos : ℚ × ℚ) : TouchTable × Reg × List Out :=
  match lookupTouch tp id with
  | none => (tp, reg, [])
  | some (sid, _) =>
    let tp' := setTouchPos tp id pos
    match lookupReg reg sid with
    | none => (tp', reg, [])
    | some none => (tp', removeReg reg sid, [])
    | some (some a) =>
        (tp',
         updateReg reg sid { a with pendingRedraw := true },
         [Out.pointerMoved sid pos])

/-- The body of the `for (surface_id, position) in cancelled` loop of
`TouchHandler::cancel` (lib.rs lines 676-692): resolve the surface
(skip if absent, evict and skip if dead) and dispatch a left-button
release at the stored position. -/
def cancel_step (acc : Reg × List Out) (v : Nat × (ℚ × ℚ)) :
    Reg × List Out :=
  match lookupReg acc.1 v.1 with
  | none => acc
  | some none => (removeReg acc.1 v.1, acc.2)
  | some (some a) =>
      (updateReg acc.1 v.1 { a with pendingRedraw := true },
       acc.2 ++ [Out.pointerReleased v.1 v.2 PtrButton.left])

/-- lib.rs `TouchHandler::cancel` (lines 670-693): drain the whole
table, then run `cancel_step` for each drained (surface, position). -/
def touch_cancel (tp : TouchTable) (reg : Reg) :
    TouchTable × Reg × List Out :=
  let r := (tp.map (fun p => p.2)).foldl cancel_step (reg, [])
  ([], r.1, r.2)

/-- Dimension resolution of `WindowHandler::configure`
(lib.rs lines 738-757): the server-supplied value when present, else
the fallback axis value when positive, else 100. -/
def resolve_dim (supplied : Option Nat) (fallbackAxis : Nat) : Nat :=
  match supplied with
  | some v => v
  | none => if fallbackAxis > 0 then fallbackAxis else 100

/-- The effect of `WindowHandler::configure` on a live adapter
(lib.rs lines 734-770): `fallback_size = pending_size.unwrap_or(size)`
chosen as a whole, each axis resolved by `resolve_dim`; commit the
size, clear the pending size, move to Configured, dispatch Resized,
set `pending_redraw`. -/
def configure_adapter (a : Adapter) (newSize : Option Nat × Option Nat) :
    Adapter × PhysSize :=
  let fallback := a.pendingSize.getD a.size
  let width := resolve_dim newSize.1 fallback.width
  let height := resolve_dim newSize.2 fallback.height
  let size : PhysSize := ⟨width, height⟩
  ({ a with
      size := size
      pendingSize := none
      windowState := WindowState.Configured
      pendingRedraw := true },
   size)

/-- lib.rs `WindowHandler::configure` (lines 717-771): resolve the
surface (return if absent, evict if dead), then apply
`configure_adapter` and dispatch `Resized`. -/
def configure (reg : Reg) (sid : Nat)
    (newSize : Option Nat × Option Nat) : Reg × List Out :=
  match lookupReg reg sid with
  | none => (reg, [])
  | some none => (removeReg reg sid, [])
  | some (some a) =>
    let r := configure_adapter a newSize
    (updateReg reg sid r.1, [Out.resized sid r.2])

/-- Per-axis resolution chain as the specification sentence words it:
the server-supplied dimension if present, otherwise the pending size
for that axis if set, otherwise the committed size for that axis when
positive, otherwise 100. Used only to compare against the code. -/
def specResolveDim (supplied : Option Nat) (pendingAxis : Option Nat)
    (committedAxis : Nat) : Nat :=
  match supplied with
  | some v => v
  | none =>
    match pendingAxis with
    | some p => p
    | none => if committedAxis > 0 then committedAxis else 100

/-- Observable protocol-side actions of one redraw of a window in the
reactor sweep: arming a frame callback (`surface.frame(...)`) and
invoking the renderer (`render.render()`). -/
inductive SweepOut where
  | armFrame
  | render
deriving DecidableEq

/-- The per-adapter body of the redraw sweep in
`Platform::run_event_loop` (platform.rs lines 150-184), after a
successful upgrade: skip unless Configured, skip if a frame callback is
pending, and on `pending_redraw` arm a frame callback, render, set
`frame_callback_pending`, clear `pending_redraw`. -/
def sweep_adapter (a : Adapter) : Adapter × List SweepOut :=
  if a.windowState ≠ WindowState.Configured then (a, [])
  else if a.frameCallbackPending then (a, [])
  else if a.pendingRedraw then
    ({ a with frameCallbackPending := true, pendingRedraw := false },
     [SweepOut.armFrame, SweepOut.render])
  else (a, [])

/-- The whole sweep `state.window_adapters.values().for_each(...)`
(platform.rs lines 150-184): dead entries are skipped with `return`
and are NOT removed from the registry; live adapters run
`sweep_adapter`. -/
def sweep_registry (reg : Reg) : Reg × List (Nat × List SweepOut) :=
  (reg.map (fun p =>
     match p.2 with
     | none => p
     | some a => (p.1, some (sweep_adapter a).1)),
   reg.foldr (fun p acc =>
     match p.2 with
     | none => acc
     | some a => (p.1, (sweep_adapter a).2) :: acc) [])

/-- Every source-code action that touches the fields of a live adapter:
`ackFrame` is `CompositorHandler::frame` (lib.rs line 210, the only
write of `frame_callback_pending := false`); `sweep` is the reactor
redraw pass (platform.rs lines 150-184); `configureEv` is the live
branch of `WindowHandler::configure`; `markRedraw` covers
`request_redraw` (window_adapter.rs line 158) and every input or
surface handler that only sets `pending_redraw := true`; `setSize` is
`LayerShellWindowAdapter::set_size` (window_adapter.rs lines 130-133). -/
inductive WAction where
  | ackFrame
  | sweep
  | configureEv (newSize : Option Nat × Option Nat)
  | markRedraw
  | setSize (s : PhysSize)
deriving DecidableEq

/-- The effect of one action on one live adapter, with the
protocol-side sweep outputs. -/
def wstep (a : Adapter) : WAction → Adapter × List SweepOut
  | WAction.ackFrame => ({ a with frameCallbackPending := false }, [])
  | WAction.sweep => sweep_adapter a
  | WAction.configureEv ns => ((configure_adapter a ns).1, [])
  | WAction.markRedraw => ({ a with pendingRedraw := true }, [])
  | WAction.setSize s =>
      ({ a with pendingSize := some s, pendingRedraw := true }, [])

/-- Run a sequence of actions on an adapter. -/
def runActs (a : Adapter) : List WAction → Adapter
  | [] => a
  | act :: rest => runActs (wstep a act).1 rest

/-- One pass of the injected-task drain: `while let Some(task) =
state.proxied_event_queue.pop_front() { task(); }` (platform.rs lines
142-144). A task is a `Nat` id; `sends t` lists the tasks that task `t`
submits through `invoke_from_event_loop` while running — those go into
the calloop channel, not into `proxied_event_queue`, because during the
drain the reactor holds the `RefCell` borrow of the state and the
channel callback only runs inside `event_loop.dispatch`. Returns
(executed tasks in order, channel contents afterwards). -/
def drain_pass (sends : Nat → List Nat) :
    List Nat → List Nat → List Nat × List Nat
  | [], chan => ([], chan)
  | t :: rest, chan =>
    let r := drain_pass sends rest (chan ++ sends t)
    (t :: r.1, r.2)

/-- Reactor loop state relevant to task injection: the
`proxied_event_queue` and the calloop channel buffer. -/
structure LoopState where
  queue : List Nat
  channel : List Nat
deriving DecidableEq

/-- One reactor pass (platform.rs lines 133-188) restricted to task
handling: drain the queue completely, then `event_loop.dispatch`
delivers every channel message into `proxied_event_queue` through the
source callback of `new_event_loop_proxy` (platform.rs lines 200-204).
Returns (executed tasks in order, next loop state). -/
def loop_pass (sends : Nat → List Nat) (st : LoopState) :
    List Nat × LoopState :=
  let r := drain_pass sends st.queue st.channel
  (r.1, { queue := r.2, channel := [] })

/-- i_slint_core `EventLoopError` as used by platform.rs. -/
inductive EventLoopError where
  | EventLoopTerminated
deriving DecidableEq

/-- The calloop channel from the sender side: `none` when the receiver
has been dropped, else the buffered messages. -/
def ChanState := Option (List Nat)

/-- platform.rs `invoke_from_event_loop` (lines 231-238):
`tx.send(event)` mapped to `EventLoopError::EventLoopTerminated` on
failure; a send fails exactly when the receiver is gone. Returns the
result and the channel afterwards. No retry. -/
def invoke_from_event_loop (chan : ChanState) (t : Nat) :
    Except EventLoopError Unit × ChanState :=
  match chan with
  | some msgs => (Except.ok (), some (msgs ++ [t]))
  | none => (Except.error EventLoopError.EventLoopTerminated, none)

/-- platform.rs `quit_event_loop` (lines 226-229): stops the loop
signal and returns Ok; it never touches the channel. Returns the
result, whether the stop signal was raised, and the channel afterwards. -/
def quit_event_loop (chan : ChanState) :
    Except EventLoopError Unit × Bool × ChanState :=
  (Except.ok (), true, chan)

/-- Wayland surface requests issued by `set_visible`. -/
inductive SurfaceOp where
  | attachNullBuffer
  | commit
deriving DecidableEq

/-- window_adapter.rs `set_visible` (lines 145-151): on `false` attach
a null buffer and commit; on `true` do nothing; always Ok. Returns the
unchanged adapter, the surface requests, and the result. -/
def set_visible (a : Adapter) (visible : Bool) :
    Adapter × List SurfaceOp × Except String Unit :=
  if visible then (a, [], Except.ok ())
  else (a, [SurfaceOp.attachNullBuffer, SurfaceOp.commit], Except.ok ())

/-! Helper lemmas about the registry and touch-table operations. -/

/-- After `removeReg`, the evicted identity is gone. -/
theorem lookupReg_removeReg (reg : Reg) (sid : Nat) :
    lookupReg (removeReg reg sid) sid = none := by
  induction reg with
  | nil => rfl
  | cons p rest ih =>
    by_cases h : p.1 = sid
    · simpa [removeReg, List.filter, h] using ih
    · simpa [removeReg, List.filter, h, lookupReg] using ih

/-- Lookup after `updateReg`: the updated identity now maps to the new
adapter when it was present, every other identity is unchanged. -/
theorem lookupReg_updateReg (reg : Reg) (sid : Nat) (b : Adapter)
    (x : Nat) :
    lookupReg (updateReg reg sid b) x =
      if x = sid then (lookupReg reg x).map (fun _ => some b)
      else lookupReg reg x := by
  induction reg with
  | nil => simp [updateReg, lookupReg]
  | cons p rest ih =>
    by_cases hpx : p.1 = x
    · by_cases hp : p.1 = sid
      · have hx : x = sid := by rw [← hpx, hp]
        simp [updateReg, lookupReg, hp, hpx, hx]
      · have hx : ¬x = sid := fun hc => hp (by rw [hpx, hc])
        simp [updateReg, lookupReg, hp, hpx, hx]
    · by_cases hp : p.1 = sid
      · have hsx : ¬sid = x := fun hc => hpx (hp.trans hc)
        have hxs : ¬x = sid := fun hc => hsx hc.symm
        simpa [updateReg, lookupReg, hp, hpx, hsx, hxs] using ih
      · simpa [updateReg, lookupReg, hp, hpx] using ih

/-- Evicting one identity leaves every other lookup unchanged. -/
theorem lookupReg_removeReg_ne (reg : Reg) (x y : Nat) (h : ¬x = y) :
    lookupReg (removeReg reg y) x = lookupReg reg x := by
  induction reg with
  | nil => rfl
  | cons p rest ih =>
    by_cases hp : p.1 = y
    · have hpx : ¬p.1 = x := fun hc => h (by rw [← hc, hp])
      have hyx : ¬y = x := fun hc => h hc.symm
      simpa [removeReg, List.filter, hp, lookupReg, hpx, hyx] using ih
    · by_cases hpx : p.1 = x
      · simp [removeReg, List.filter, hp, lookupReg, hpx, h]
      · simpa [removeReg, List.filter, hp, lookupReg, hpx] using ih

/-- An absent identity stays absent through any eviction. -/
theorem lookupReg_removeReg_none (reg : Reg) (x y : Nat)
    (h : lookupReg reg x = none) :
    lookupReg (removeReg reg y) x = none := by
  by_cases hxy : x = y
  · subst hxy
    exact lookupReg_removeReg reg x
  · rw [lookupReg_removeReg_ne reg x y hxy]
    exact h

/-- One cancel-loop iteration keeps an absent identity absent. -/
theorem cancel_step_absent {reg : Reg} {acc : List Out} {sid : Nat}
    (h : lookupReg reg sid = none) (v : Nat × (ℚ × ℚ)) :
    lookupReg (cancel_step (reg, acc) v).1 sid = none := by
  by_cases hs : sid = v.1
  · subst hs
    simp [cancel_step, h]
  · cases hv : lookupReg reg v.1 with
    | none => simpa [cancel_step, hv] using h
    | some w =>
      cases w with
      | none =>
        simpa [cancel_step, hv] using
          lookupReg_removeReg_none reg sid v.1 h
      | some a =>
        simp [cancel_step, hv, lookupReg_updateReg, hs, h]

/-- One cancel-loop iteration never revives a dead identity: it stays
dead or becomes absent. -/
theorem cancel_step_dead {reg : Reg} {acc : List Out} {sid : Nat}
    (h : lookupReg reg sid = some none) (v : Nat × (ℚ × ℚ)) :
    lookupReg (cancel_step (reg, acc) v).1 sid = some none ∨
    lookupReg (cancel_step (reg, acc) v).1 sid = none := by
  by_cases hs : sid = v.1
  · subst hs
    right
    simp [cancel_step, h, lookupReg_removeReg]
  · cases hv : lookupReg reg v.1 with
    | none => left; simpa [cancel_step, hv] using h
    | some w =>
      cases w with
      | none =>
        left
        simpa [cancel_step, hv] using
          (lookupReg_removeReg_ne reg sid v.1 hs).trans h
      | some a =>
        left
        simp [cancel_step, hv, lookupReg_updateReg, hs, h]

/-- The cancel fold keeps an absent identity absent. -/
theorem cancel_fold_absent (pts : List (Nat × (ℚ × ℚ))) :
    ∀ (reg : Reg) (acc : List Out) (sid : Nat),
      lookupReg reg sid = none →
      lookupReg ((pts.foldl cancel_step (reg, acc)).1) sid = none := by
  induction pts with
  | nil => intro reg acc sid h; simpa using h
  | cons v rest ih =>
    intro reg acc sid h
    exact ih (cancel_step (reg, acc) v).1 (cancel_step (reg, acc) v).2
      sid (cancel_step_absent h v)

/-- A dead identity recorded by some drained point is evicted by the
cancel fold: the final lookup is not-found. -/
theorem cancel_fold_evicts (pts : List (Nat × (ℚ × ℚ))) :
    ∀ (reg : Reg) (acc : List Out) (sid : Nat),
      lookupReg reg sid = some none ∨ lookupReg reg sid = none →
      (∃ pos, (sid, pos) ∈ pts) →
      lookupReg ((pts.foldl cancel_step (reg, acc)).1) sid = none := by
  induction pts with
  | nil =>
    intro reg acc sid _ hmem
    obtain ⟨pos, hp⟩ := hmem
    exact absurd hp (List.not_mem_nil _)
  | cons v rest ih =>
    intro reg acc sid hdead hmem
    rcases hdead with hdead | habs
    · by_cases hs : sid = v.1
      · have hstep : lookupReg (cancel_step (reg, acc) v).1 sid = none := by
          subst hs
          simp [cancel_step, hdead, lookupReg_removeReg]
        exact cancel_fold_absent rest _ _ sid hstep
      · obtain ⟨pos, hp⟩ := hmem
        have hvr : (sid, pos) ∈ rest := by
          rcases List.mem_cons.mp hp with heq | hr
          · exact absurd (congrArg Prod.fst heq) hs
          · exact hr
        rcases cancel_step_dead hdead v with h2 | h2
        · exact ih _ _ sid (Or.inl h2) ⟨pos, hvr⟩
        · exact cancel_fold_absent rest _ _ sid h2
    · exact cancel_fold_absent (v :: rest) reg acc sid habs

/-- The cancel fold releases exactly the drained points whose surface
is live, in table order: liveness categories never change during the
fold (live entries only get their redraw flag set, dead entries only
get evicted), so the releases are a filter of the drained list by
initial liveness. -/
theorem cancel_fold_filter (pts : List (Nat × (ℚ × ℚ))) :
    ∀ (cur reg : Reg) (acc : List Out),
      (∀ x, liveState cur x = liveState reg x) →
      (pts.foldl cancel_step (cur, acc)).2 =
        acc ++ pts.filterMap (fun v =>
          if liveState reg v.1 then
            some (Out.pointerReleased v.1 v.2 PtrButton.left)
          else none) := by
  induction pts with
  | nil => intro cur reg acc _; simp
  | cons v rest ih =>
    intro cur reg acc hagree
    have hv := hagree v.1
    have hfold : (v :: rest).foldl cancel_step (cur, acc) =
        rest.foldl cancel_step (cancel_step (cur, acc) v) := rfl
    cases hcur : lookupReg cur v.1 with
    | none =>
      have hl : liveState reg v.1 = false := by
        rw [← hv]
        simp [liveState, hcur]
      have hstep : cancel_step (cur, acc) v = (cur, acc) := by
        simp [cancel_step, hcur]
      rw [hfold, hstep, ih cur reg acc hagree]
      simp [hl]
    | some w =>
      cases w with
      | none =>
        have hl : liveState reg v.1 = false := by
          rw [← hv]
          simp [liveState, hcur]
        have hstep : cancel_step (cur, acc) v =
            (removeReg cur v.1, acc) := by
          simp [cancel_step, hcur]
        have hagree2 : ∀ x,
            liveState (removeReg cur v.1) x = liveState reg x := by
          intro x
          rw [← hagree x]
          by_cases hx : x = v.1
          · subst hx
            simp [liveState, lookupReg_removeReg, hcur]
          · simp [liveState, lookupReg_removeReg_ne cur x v.1 hx]
        rw [hfold, hstep, ih _ reg acc hagree2]
        simp [hl]
      | some a =>
        have hl : liveState reg v.1 = true := by
          rw [← hv]
          simp [liveState, hcur]
        have hstep : cancel_step (cur, acc) v =
            (updateReg cur v.1 { a with pendingRedraw := true },
             acc ++ [Out.pointerReleased v.1 v.2 PtrButton.left]) := by
          simp [cancel_step, hcur]
        have hagree2 : ∀ x,
            liveState (updateReg cur v.1
              { a with pendingRedraw := true }) x = liveState reg x := by
          intro x
          rw [← hagree x]
          rw [liveState, liveState, lookupReg_updateReg]
          by_cases hx : x = v.1
          · subst hx
            simp [hcur]
          · simp [hx]
        rw [hfold, hstep, ih _ reg _ hagree2]
        simp [hl]

end SlintLayerShell

namespace SlintLayerShell

/-- C5: keyboard text resolution — the supplied UTF-8 text when
non-empty; otherwise the keysym-to-character mapping; and when neither
yields text, the key press/repeat/release handlers dispatch nothing
and change nothing. -/
theorem c5_key_text_resolution :
    (∀ (e : KeyEvent) (t : String), e.utf8 = some t → t ≠ "" →
      key_event_text e = some t) ∧
    (∀ e : KeyEvent, e.utf8 = none ∨ e.utf8 = some "" →
      key_event_text e = e.keyChar.map (fun c => String.mk [c])) ∧
    (∀ (focus : Option Nat) (reg : Reg) (e : KeyEvent),
      key_event_text e = none →
      press_key focus reg e = (reg, []) ∧
      repeat_key focus reg e = (reg, []) ∧
      release_key focus reg e = (reg, [])) := by
  refine ⟨?_, ?_, ?_⟩
  · intro e t ht hne
    simp [key_event_text, ht, hne]
  · intro e he
    rcases he with he | he <;> simp [key_event_text, he]
  · intro focus reg e he
    refine ⟨?_, ?_, ?_⟩ <;>
      · cases focus with
        | none => rfl
        | some sid =>
          simp only [press_key, repeat_key, release_key]
          cases hl : lookupReg reg sid with
          | none => rfl
          | some w =>
            cases w with
            | none => rfl
            | some a => simp [he]

/-- C5 witness: concrete instances of the three resolution cases. -/
theorem c5_key_text_resolution_witness :
    key_event_text ⟨some "a", none⟩ = some "a" ∧
    key_event_text ⟨some "", some (Char.ofNat 120)⟩ =
      some (String.mk [Char.ofNat 120]) ∧
    press_key (some 1) [(1, some Adapter.initial)] ⟨none, none⟩ =
      ([(1, some Adapter.initial)], []) :=
  ⟨c5_key_text_resolution.1 ⟨some "a", none⟩ "a" rfl (by decide),
   by
     have h := c5_key_text_resolution.2.1
       ⟨some "", some (Char.ofNat 120)⟩ (Or.inr rfl)
     simpa using h,
   (c5_key_text_resolution.2.2 (some 1) [(1, some Adapter.initial)]
      ⟨none, none⟩ rfl).1⟩

/-- C6: per axis, the delivered scroll delta is the continuous value
when nonzero, else the discrete step count times 15; an axis pointer
event on a live surface dispatches exactly one scroll with those
deltas; horizontal absolute 0 with discrete 2 yields delta 30. -/
theorem c6_scroll_delta_resolution :
    (∀ ax : AxisScroll, ax.absolute ≠ 0 → scroll_delta ax = ax.absolute) ∧
    (∀ ax : AxisScroll, ax.absolute = 0 →
      scroll_delta ax = ax.discrete * 15) ∧
    (∀ (reg : Reg) (sid : Nat) (a : Adapter) (pos : ℚ × ℚ)
        (h v : AxisScroll),
      lookupReg reg sid = some (some a) →
      pointer_frame reg [⟨sid, pos, PtrKind.axis h v⟩] =
        (updateReg reg sid { a with pendingRedraw := true },
         [Out.pointerScrolled sid pos (scroll_delta h) (scroll_delta v)])) ∧
    scroll_delta ⟨0, 2⟩ = 30 := by
  refine ⟨?_, ?_, ?_, by norm_num [scroll_delta]⟩
  · intro ax hne
    simp [scroll_delta, hne]
  · intro ax h0
    simp [scroll_delta, h0]
  · intro reg sid a pos h v hl
    simp [pointer_frame, pointer_event_step, hl]

/-- C6 witness: the scenario axis event on a live window delivers
delta 30 on the horizontal axis. -/
theorem c6_scroll_delta_resolution_witness :
    pointer_frame [(3, some Adapter.initial)]
        [⟨3, (0, 0), PtrKind.axis ⟨0, 2⟩ ⟨0, 0⟩⟩] =
      ([(3, some { Adapter.initial with pendingRedraw := true })],
       [Out.pointerScrolled 3 (0, 0) 30 0]) := by
  have h := c6_scroll_delta_resolution.2.2.1
    [(3, some Adapter.initial)] 3 Adapter.initial (0, 0) ⟨0, 2⟩ ⟨0, 0⟩ rfl
  rw [h]
  norm_num [updateReg, scroll_delta]

/-- C9: touch up and touch motion with an unknown touch-point id are
silent no-ops — no event, no touch-table change, no registry change,
no error. -/
theorem c9_orphan_touch_noop (tp : TouchTable) (reg : Reg) (id : Int)
    (pos : ℚ × ℚ) (h : lookupTouch tp id = none) :
    touch_up tp reg id = (tp, reg, []) ∧
    touch_motion tp reg id pos = (tp, reg, []) := by
  constructor
  · simp [touch_up, h]
  · simp [touch_motion, h]

/-- C9 witness: unknown id 5 on a table that only tracks id 7. -/
theorem c9_orphan_touch_noop_witness :
    touch_up [(7, 1, (10, 20))] [(1, some Adapter.initial)] 5 =
      ([(7, 1, (10, 20))], [(1, some Adapter.initial)], []) ∧
    touch_motion [(7, 1, (10, 20))] [(1, some Adapter.initial)] 5 (3, 4) =
      ([(7, 1, (10, 20))], [(1, some Adapter.initial)], []) :=
  c9_orphan_touch_noop [(7, 1, (10, 20))] [(1, some Adapter.initial)]
    5 (3, 4) (by decide)

/-- C10: set_visible always returns Ok and never changes the adapter;
true performs no surface request at all; false attaches a null buffer
and commits. -/
theorem c10_set_visible_total (a : Adapter) (visible : Bool) :
    (set_visible a visible).1 = a ∧
    (set_visible a visible).2.2 = Except.ok () ∧
    (set_visible a true).2.1 = [] ∧
    (set_visible a false).2.1 =
      [SurfaceOp.attachNullBuffer, SurfaceOp.commit] := by
  cases visible <;> simp [set_visible]

/-- C2 counterexample: with pending_size = Some(0 x 150), committed
size 50 x 60 and no server-supplied dimensions, the code resolves the
width to 100 (the whole fallback is the pending size, whose width 0
trips the default), while the claimed per-axis chain resolves it to the
set pending width 0 — or to the committed width 50 if a zero pending
axis is read as unset. Neither matches. -/
theorem c2_counterexample :
    (configure
        [(1, some ⟨WindowState.Pending, false, false, ⟨50, 60⟩,
            some ⟨0, 150⟩⟩)] 1 (none, none)).2 =
      [Out.resized 1 ⟨100, 150⟩] ∧
    specResolveDim none (some 0) 50 = 0 ∧
    specResolveDim none none 50 = 50 ∧
    (100 : Nat) ≠ 0 ∧ (100 : Nat) ≠ 50 := by decide

/-- C2 amended: each axis uses the server-supplied dimension if
present; otherwise a single fallback size is chosen as the whole
pending-size if set, else the whole committed size, and the axis
resolves to that fallback axis value if positive, else the fixed
default 100. After resolution the committed size equals the resolved
size, the pending-size slot is cleared, the state becomes Configured,
and a Resized notification plus a pending-redraw request are emitted;
in particular new_size=(None, Some(300)) with pending_size=Some(200x150)
and current_size=0x0 resolves to (200, 300). -/
theorem c2_configure_resolution :
    (∀ (reg : Reg) (sid : Nat) (a : Adapter)
        (ns : Option Nat × Option Nat),
      lookupReg reg sid = some (some a) →
      configure reg sid ns =
        (updateReg reg sid (configure_adapter a ns).1,
         [Out.resized sid (configure_adapter a ns).2])) ∧
    (∀ (a : Adapter) (ns : Option Nat × Option Nat),
      (configure_adapter a ns).2 =
        ⟨resolve_dim ns.1 (a.pendingSize.getD a.size).width,
         resolve_dim ns.2 (a.pendingSize.getD a.size).height⟩ ∧
      (configure_adapter a ns).1 =
        { windowState := WindowState.Configured
          pendingRedraw := true
          frameCallbackPending := a.frameCallbackPending
          size := (configure_adapter a ns).2
          pendingSize := none }) ∧
    (∀ v fb : Nat, resolve_dim (some v) fb = v) ∧
    (∀ fb : Nat, 0 < fb → resolve_dim none fb = fb) ∧
    resolve_dim none 0 = 100 ∧
    configure
        [(5, some ⟨WindowState.Pending, false, false, ⟨0, 0⟩,
            some ⟨200, 150⟩⟩)] 5 (none, some 300) =
      ([(5, some ⟨WindowState.Configured, true, false, ⟨200, 300⟩,
          none⟩)],
       [Out.resized 5 ⟨200, 300⟩]) := by
  refine ⟨?_, ?_, fun v fb => rfl, ?_, by decide, by decide⟩
  · intro reg sid a ns hl
    simp [configure, hl]
  · intro a ns
    exact ⟨rfl, rfl⟩
  · intro fb hfb
    simp [resolve_dim, hfb]

/-- C2 witness: a live adapter configured with both dimensions
supplied, and the positive-fallback case of the resolution. -/
theorem c2_configure_resolution_witness :
    configure [(2, some Adapter.initial)] 2 (some 8, some 9) =
      ([(2, some ⟨WindowState.Configured, true, false, ⟨8, 9⟩, none⟩)],
       [Out.resized 2 ⟨8, 9⟩]) ∧
    resolve_dim none 7 = 7 := by
  constructor
  · have h := c2_configure_resolution.1 [(2, some Adapter.initial)] 2
      Adapter.initial (some 8, some 9) rfl
    rw [h]
    decide
  · exact c2_configure_resolution.2.2.2.1 7 (by norm_num)

/-- C4 counterexample: a tracked point whose recorded surface is a dead
weak reference gets no synthesized release at all on cancel, against
the claimed exactly-one-per-tracked-point. -/
theorem c4_counterexample :
    touch_cancel [(7, 1, (10, 20))] [(1, none)] = ([], [], []) ∧
    ([] : List Out) ≠
      [Out.pointerReleased 1 (10, 20) PtrButton.left] := by
  exact ⟨rfl, by decide⟩

/-- C4 amended: for every touch table and registry, cancel synthesizes
exactly one left-button release per currently tracked touch point whose
recorded surface resolves to a live adapter, each at that point's
recorded surface and last stored position in table order, and no
release for a point whose surface is absent or dead (the releases are
the drained list filtered by liveness); the touch table is empty
afterwards in every case; in particular touch-down id=7 at (10,20) on
a live surface followed by cancel yields exactly one release for that
surface at (10,20). -/
theorem c4_cancel_releases_tracked (tp : TouchTable) (reg : Reg) :
    (touch_cancel tp reg).2.2 =
      (tp.map (fun p => p.2)).filterMap (fun v =>
        if liveState reg v.1 then
          some (Out.pointerReleased v.1 v.2 PtrButton.left)
        else none) ∧
    (touch_cancel tp reg).1 = [] ∧
    (∀ a : Adapter,
      touch_cancel (touch_down [] [(1, some a)] 1 7 (10, 20)).1
          (touch_down [] [(1, some a)] 1 7 (10, 20)).2.1 =
        ([], [(1, some { a with pendingRedraw := true })],
         [Out.pointerReleased 1 (10, 20) PtrButton.left])) := by
  refine ⟨?_, rfl, fun a => rfl⟩
  simpa [touch_cancel] using
    cancel_fold_filter (tp.map (fun p => p.2)) reg reg []
      (fun x => rfl)

/-- C8 counterexample: with the receiver side dropped, quit_event_loop
returns Ok, not the terminated-loop error the claim states. -/
theorem c8_counterexample :
    (quit_event_loop none).1 = Except.ok () ∧
    (quit_event_loop none).1 ≠
      Except.error EventLoopError.EventLoopTerminated :=
  ⟨rfl, fun h => Except.noConfusion h⟩

/-- C8 amended: with the receiver dropped, invoke_from_event_loop
returns the terminated-loop error (one attempt, no retry); with a live
receiver it enqueues the task; quit_event_loop never consults the
channel — it raises the stop signal and returns Ok in every state. -/
theorem c8_proxy_channel_errors :
    (∀ t : Nat, invoke_from_event_loop none t =
      (Except.error EventLoopError.EventLoopTerminated, none)) ∧
    (∀ (msgs : List Nat) (t : Nat),
      invoke_from_event_loop (some msgs) t =
        (Except.ok (), some (msgs ++ [t]))) ∧
    (∀ chan : ChanState,
      quit_event_loop chan = (Except.ok (), true, chan)) :=
  ⟨fun _ => rfl, fun _ _ => rfl, fun _ => rfl⟩

/-- Lookup through the redraw sweep: keys are untouched, dead entries
stay dead, live entries hold the swept adapter. -/
theorem lookupReg_sweep_registry (reg : Reg) (sid : Nat) :
    lookupReg (sweep_registry reg).1 sid =
      (lookupReg reg sid).map
        (Option.map (fun a => (sweep_adapter a).1)) := by
  induction reg with
  | nil => rfl
  | cons p rest ih =>
    by_cases hp : p.1 = sid
    · cases hw : p.2 with
      | none => simp [sweep_registry, lookupReg, hp, hw]
      | some a => simp [sweep_registry, lookupReg, hp, hw]
    · cases hw : p.2 with
      | none => simpa [sweep_registry, lookupReg, hp, hw] using ih
      | some a => simpa [sweep_registry, lookupReg, hp, hw] using ih

/-- C3 counterexample: a dead weak reference under the keyboard focus
identity survives press_key (the and_then chain resolves to None
without evicting), and survives the redraw sweep too, so a subsequent
lookup returns the same stale hit, against the claimed self-healing of
every handler. -/
theorem c3_counterexample :
    press_key (some 1) [(1, none)] ⟨some "a", none⟩ = ([(1, none)], []) ∧
    lookupReg (press_key (some 1) [(1, none)] ⟨some "a", none⟩).1 1 =
      some none ∧
    (sweep_registry [(1, none)]).1 = [(1, none)] ∧
    some (none : Option Adapter) ≠ none := by decide

/-- C3 amended: the frame, surface enter/leave, keyboard enter/leave,
pointer, touch down/up and configure handlers each evict a dead entry
they encounter, so a subsequent lookup returns not-found; the key
press/repeat/release handlers however return without evicting, and the
redraw sweep skips dead entries leaving them in the registry. -/
theorem c3_dead_entry_eviction (reg : Reg) (sid : Nat)
    (info : Option Int) (e : KeyEvent) (pos pos2 : ℚ × ℚ)
    (pk : PtrKind) (tp : TouchTable) (id : Int)
    (ns : Option Nat × Option Nat)
    (hdead : lookupReg reg sid = some none) :
    lookupReg (frame reg sid) sid = none ∧
    lookupReg (surface_enter reg sid info).1 sid = none ∧
    lookupReg (surface_leave reg sid).1 sid = none ∧
    lookupReg (kb_enter reg sid).2.1 sid = none ∧
    lookupReg (kb_leave reg sid).2.1 sid = none ∧
    lookupReg (pointer_event_step reg ⟨sid, pos, pk⟩).1 sid = none ∧
    lookupReg (touch_down tp reg sid id pos).2.1 sid = none ∧
    lookupReg (configure reg sid ns).1 sid = none ∧
    (lookupTouch tp id = some (sid, pos) →
      lookupReg (touch_up tp reg id).2.1 sid = none) ∧
    (lookupTouch tp id = some (sid, pos) →
      lookupReg (touch_motion tp reg id pos2).2.1 sid = none) ∧
    ((sid, pos) ∈ tp.map (fun p => p.2) →
      lookupReg (touch_cancel tp reg).2.1 sid = none) ∧
    press_key (some sid) reg e = (reg, []) ∧
    repeat_key (some sid) reg e = (reg, []) ∧
    release_key (some sid) reg e = (reg, []) ∧
    lookupReg (sweep_registry reg).1 sid = some none := by
  refine ⟨?_, ?_, ?_, ?_, ?_, ?_, ?_, ?_, ?_, ?_, ?_, ?_, ?_, ?_, ?_⟩
  · simp [frame, hdead, lookupReg_removeReg]
  · simp [surface_enter, hdead, lookupReg_removeReg]
  · simp [surface_leave, hdead, lookupReg_removeReg]
  · simp [kb_enter, hdead, lookupReg_removeReg]
  · simp [kb_leave, hdead, lookupReg_removeReg]
  · simp [pointer_event_step, hdead, lookupReg_removeReg]
  · simp [touch_down, hdead, lookupReg_removeReg]
  · simp [configure, hdead, lookupReg_removeReg]
  · intro ht
    simp [touch_up, ht, hdead, lookupReg_removeReg]
  · intro ht
    simp [touch_motion, ht, hdead, lookupReg_removeReg]
  · intro hmem
    have h := cancel_fold_evicts (tp.map (fun p => p.2)) reg [] sid
      (Or.inl hdead) ⟨pos, hmem⟩
    simpa [touch_cancel] using h
  · simp [press_key, hdead]
  · simp [repeat_key, hdead]
  · simp [release_key, hdead]
  · simp [lookupReg_sweep_registry, hdead]

/-- C3 witness: a registry whose only entry for id 2 is dead, touched
by the frame handler, the touch handlers, press_key and the sweep. -/
theorem c3_dead_entry_eviction_witness :
    lookupReg (frame [(2, none)] 2) 2 = none ∧
    lookupReg (touch_motion [(4, 2, (0, 0))] [(2, none)] 4
      (1, 1)).2.1 2 = none ∧
    lookupReg (touch_cancel [(4, 2, (0, 0))] [(2, none)]).2.1 2 =
      none ∧
    press_key (some 2) [(2, none)] ⟨none, some (Char.ofNat 97)⟩ =
      ([(2, none)], []) ∧
    lookupReg (sweep_registry [(2, none)]).1 2 = some none := by
  have h := c3_dead_entry_eviction [(2, none)] 2 none
    ⟨none, some (Char.ofNat 97)⟩ (0, 0) (1, 1) PtrKind.leave
    [(4, 2, (0, 0))] 4 (none, none) rfl
  exact ⟨h.1,
    h.2.2.2.2.2.2.2.2.2.1 (by decide),
    h.2.2.2.2.2.2.2.2.2.2.1 (by decide),
    h.2.2.2.2.2.2.2.2.2.2.2.1,
    h.2.2.2.2.2.2.2.2.2.2.2.2.2.2⟩

/-- Action sequencing lemma for adapter traces. -/
theorem runActs_append (a : Adapter) (l1 l2 : List WAction) :
    runActs a (l1 ++ l2) = runActs (runActs a l1) l2 := by
  induction l1 generalizing a with
  | nil => rfl
  | cons x rest ih => simp [runActs, ih]

/-- Arming a frame request happens only in an eligible sweep, and
leaves frame_callback_pending set. -/
theorem armFrame_mem_wstep {a : Adapter} {act : WAction}
    (h : SweepOut.armFrame ∈ (wstep a act).2) :
    a.windowState = WindowState.Configured ∧
    a.frameCallbackPending = false ∧ a.pendingRedraw = true ∧
    (wstep a act).1.frameCallbackPending = true := by
  cases act with
  | ackFrame => simp [wstep] at h
  | sweep =>
    rcases a with ⟨ws, pr, fcp, sz, ps⟩
    cases ws <;> cases pr <;> cases fcp <;>
      simp_all [wstep, sweep_adapter]
  | configureEv ns => simp [wstep] at h
  | markRedraw => simp [wstep] at h
  | setSize s => simp [wstep] at h

/-- Every action other than the frame acknowledgement preserves a set
frame_callback_pending flag. -/
theorem fcp_step_preserved {a : Adapter} {act : WAction}
    (hne : act ≠ WAction.ackFrame)
    (hf : a.frameCallbackPending = true) :
    (wstep a act).1.frameCallbackPending = true := by
  cases act with
  | ackFrame => exact absurd rfl hne
  | sweep =>
    rcases a with ⟨ws, pr, fcp, sz, ps⟩
    cases ws <;> simp_all [wstep, sweep_adapter]
  | configureEv ns => simpa [wstep, configure_adapter] using hf
  | markRedraw => simpa [wstep] using hf
  | setSize s => simpa [wstep] using hf

/-- An acknowledgement-free action sequence preserves a set
frame_callback_pending flag. -/
theorem fcp_run_preserved {a : Adapter} {l : List WAction}
    (hf : a.frameCallbackPending = true)
    (hn : WAction.ackFrame ∉ l) :
    (runActs a l).frameCallbackPending = true := by
  induction l generalizing a with
  | nil => exact hf
  | cons x rest ih =>
    have hx : x ≠ WAction.ackFrame := fun hc =>
      hn (by rw [hc]; exact List.mem_cons_self _ _)
    have hrest : WAction.ackFrame ∉ rest := fun hc =>
      hn (List.mem_cons_of_mem _ hc)
    exact ih (fcp_step_preserved hx hf) hrest

/-- C1: the sweep renders exactly when state = Configured, no frame
callback pending and a redraw pending; on eligibility it arms a frame
request, renders, sets frame_callback_pending and clears
pending_redraw; the sweep over the registry applies this to every live
adapter; the frame acknowledgement is the only action clearing
frame_callback_pending; hence between two frame-request arms on the
same window an acknowledgement always intervenes. -/
theorem c1_frame_callback_gating :
    (∀ a : Adapter,
      SweepOut.render ∈ (sweep_adapter a).2 ↔
        a.windowState = WindowState.Configured ∧
        a.frameCallbackPending = false ∧ a.pendingRedraw = true) ∧
    (∀ a : Adapter,
      a.windowState = WindowState.Configured →
      a.frameCallbackPending = false → a.pendingRedraw = true →
      (sweep_adapter a).2 = [SweepOut.armFrame, SweepOut.render] ∧
      (sweep_adapter a).1.frameCallbackPending = true ∧
      (sweep_adapter a).1.pendingRedraw = false) ∧
    (∀ (reg : Reg) (sid : Nat) (a : Adapter),
      lookupReg reg sid = some (some a) →
      lookupReg (sweep_registry reg).1 sid =
        some (some (sweep_adapter a).1)) ∧
    (∀ (a : Adapter) (act : WAction), act ≠ WAction.ackFrame →
      a.frameCallbackPending = true →
      (wstep a act).1.frameCallbackPending = true) ∧
    (∀ a : Adapter,
      (wstep a WAction.ackFrame).1.frameCallbackPending = false) ∧
    (∀ (a0 : Adapter) (p m : List WAction) (x y : WAction),
      SweepOut.armFrame ∈ (wstep (runActs a0 p) x).2 →
      SweepOut.armFrame ∈ (wstep (runActs a0 (p ++ x :: m)) y).2 →
      WAction.ackFrame ∈ m) := by
  refine ⟨?_, ?_, ?_,
    fun a act hne hf => fcp_step_preserved hne hf,
    fun a => rfl, ?_⟩
  · intro a
    rcases a with ⟨ws, pr, fcp, sz, ps⟩
    cases ws <;> cases pr <;> cases fcp <;> simp [sweep_adapter]
  · intro a hws hf hp
    rcases a with ⟨ws, pr, fcp, sz, ps⟩
    cases ws <;> cases pr <;> cases fcp <;>
      simp_all [sweep_adapter]
  · intro reg sid a hl
    simp [lookupReg_sweep_registry, hl]
  · intro a0 p m x y hx hy
    by_contra hm
    have h1 := armFrame_mem_wstep hx
    have h2 := armFrame_mem_wstep hy
    have hrun : runActs a0 (p ++ x :: m) =
        runActs (wstep (runActs a0 p) x).1 m := by
      have hsplit : p ++ x :: m = (p ++ [x]) ++ m := by simp
      rw [hsplit, runActs_append, runActs_append]
      rfl
    have hf : (runActs a0 (p ++ x :: m)).frameCallbackPending = true := by
      rw [hrun]
      exact fcp_run_preserved h1.2.2.2 hm
    rw [h2.2.1] at hf
    exact Bool.false_ne_true hf

/-- C1 witness: a configured window with a pending redraw arms on a
sweep; with trace sweep, ack, mark-redraw, sweep the second arm has an
acknowledgement in between. -/
theorem c1_frame_callback_gating_witness :
    WAction.ackFrame ∈ [WAction.ackFrame, WAction.markRedraw] ∧
    (sweep_adapter ⟨WindowState.Configured, true, false, ⟨0, 0⟩,
        none⟩).2 = [SweepOut.armFrame, SweepOut.render] := by
  refine ⟨?_, ?_⟩
  · exact c1_frame_callback_gating.2.2.2.2.2
      ⟨WindowState.Configured, true, false, ⟨0, 0⟩, none⟩
      [] [WAction.ackFrame, WAction.markRedraw]
      WAction.sweep WAction.sweep (by decide) (by decide)
  · exact (c1_frame_callback_gating.2.1
      ⟨WindowState.Configured, true, false, ⟨0, 0⟩, none⟩
      rfl rfl rfl).1

/-- The complete drain of the injected-task queue: every queued task
runs in order, and the tasks sent through the proxy during the drain
end up in the channel, appended in execution order. -/
theorem drain_pass_spec (sends : Nat → List Nat) (q : List Nat) :
    ∀ chan : List Nat,
      drain_pass sends q chan = (q, chan ++ q.flatMap sends) := by
  induction q with
  | nil => intro chan; simp [drain_pass]
  | cons t rest ih =>
    intro chan
    simp [drain_pass, ih, List.append_assoc]

/-- C7: one reactor pass executes exactly the queued tasks, in FIFO
order; a task not already queued (in particular one enqueued through
the proxy during the pass) is not executed in this pass; the
subsequent dispatch delivers the channel contents — prior channel
backlog then the tasks sent during this pass in execution order — into
the queue, and the next pass executes exactly those. -/
theorem c7_task_queue_fifo (sends : Nat → List Nat) (st : LoopState) :
    (loop_pass sends st).1 = st.queue ∧
    (∀ u : Nat, u ∉ st.queue → u ∉ (loop_pass sends st).1) ∧
    (loop_pass sends st).2 =
      { queue := st.channel ++ st.queue.flatMap sends, channel := [] } ∧
    (loop_pass sends (loop_pass sends st).2).1 =
      st.channel ++ st.queue.flatMap sends := by
  have h := drain_pass_spec sends st.queue st.channel
  refine ⟨by simp [loop_pass, h], ?_, by simp [loop_pass, h], ?_⟩
  · intro u hu
    simpa [loop_pass, h] using hu
  · simp [loop_pass, h, drain_pass_spec]

/-- C7 witness: queue [1, 2] with channel backlog [3]; task t sends
t + 10; the pass runs 1 then 2, neither 11 nor 12 runs this pass, and
the next pass runs 3, 11, 12. -/
theorem c7_task_queue_fifo_witness :
    (loop_pass (fun t => [t + 10]) ⟨[1, 2], [3]⟩).1 = [1, 2] ∧
    (11 : Nat) ∉ (loop_pass (fun t => [t + 10]) ⟨[1, 2], [3]⟩).1 ∧
    (loop_pass (fun t => [t + 10])
        (loop_pass (fun t => [t + 10]) ⟨[1, 2], [3]⟩).2).1 =
      [3, 11, 12] := by
  have h := c7_task_queue_fifo (fun t => [t + 10]) ⟨[1, 2], [3]⟩
  refine ⟨h.1, h.2.1 11 (by decide), ?_⟩
  rw [h.2.2.2]
  decide

end SlintLayerShell
